import Mathlib

/-!
# vaulttest: the server-lifecycle manager of `pkg/vaulttest/server.go`

A shallow embedding of `VaultServer` and its operations (`NewVaultServer`,
`DevServerStart`, `ServerStart`, `ServerShutDown`, `VaultTestClient`), and the
properties of the specification stated and settled on it.

* A Go `string` is a finite sequence of bytes; it is modelled as a list of
  byte values. The separator, the labels and the newline are ASCII, so the
  operations on bytes used here agree with the operations of Go on text.
* Everything the operations read from the host (home directory, file system,
  executable lookup, the outcome of starting the process, the lines the
  process prints until its output ends) is an explicit argument. Logging and
  the wiring of the standard error stream have no effect on the instance and are
  left out.
* An operation ends in one of four ways, see `Run`: it returns, it panics, it
  exits the process through `log.Fatal`, or it is still in the scan loop when
  the iteration budget is used up; in that case the result holds the instance as
  the loop has left it, since the operations write the instance in place.
-/

namespace VaultTest

/-- A Go string: its bytes, in order. -/
abbrev GoString := List Nat

/-- The bytes of an ASCII string literal of the source. -/
def str (s : String) : GoString := s.data.map Char.toNat

/-! ## Data model -/

/-- An os.Process: a started child process. -/
structure Process where
  Pid : Nat
  deriving DecidableEq, Repr

/-- An exec.Cmd: its argument list and, once Start has succeeded, its process.
The path exec.Command resolves for the executable is read by no operation of the
program and is left out. -/
structure Cmd where
  Args : List GoString
  Process : Option Process
  deriving DecidableEq, Repr

/-- The VaultServer struct (server.go, lines 17-25). Command is a pointer: none is nil. -/
structure VaultServer where
  Command : Option Cmd
  Running : Bool
  UnsealKey : GoString
  RootToken : GoString
  UserToken : GoString
  UserTokenFile : GoString
  Address : GoString
  deriving DecidableEq, Repr

/-- How a call ends. The one loop of the program is the scan of DevServerStart,
which writes the instance in place: a call that is still in that loop when the
iteration budget runs out is pending, with the instance as it stands then. -/
inductive Run (α : Type) where
  /-- the call returned -/
  | ret (a : α)
  /-- a run-time panic (index out of range, nil dereference) -/
  | panic
  /-- the process exited through log.Fatal -/
  | fatal
  /-- the call had not returned when the iteration budget of the scan loop ran
  out: the instance as the loop has left it so far -/
  | pending (s : VaultServer)
  deriving DecidableEq, Repr

namespace Run

/-- Sequencing: the continuation runs only after a return. -/
def bind {α β : Type} : Run α → (α → Run β) → Run β
  | ret a, f => f a
  | panic, _ => panic
  | fatal, _ => fatal
  | pending s, _ => pending s

end Run

/-- NewVaultServer (server.go, lines 28-38): every other field has its zero value. -/
def NewVaultServer (address : GoString) : VaultServer :=
  let address := if address = [] then str "127.0.0.1:8200" else address
  { Command := none, Running := false, UnsealKey := [], RootToken := [],
    UserToken := [], UserTokenFile := [], Address := address }

/-! ## Standard-library string operations used by the scan -/

/-- strings.Index: the position of the first occurrence of sep in s, none for -1. -/
def Index : GoString → GoString → Option Nat
  | [], sep => if sep = [] then some 0 else none
  | c :: rest, sep =>
    if sep.isPrefixOf (c :: rest) then some 0
    else (Index rest sep).map (fun m => m + 1)

/-- The loop of strings.genSplit: cut at each occurrence of sep, left to right.
The source bounds the loop by Count(s, sep), which is reached exactly when Index
fails; here the bound is any number of rounds that is at least len(s). -/
def genSplit (sep : GoString) : Nat → GoString → List GoString
  | 0, s => [s]
  | n + 1, s =>
    match Index s sep with
    | none => [s]
    | some m => s.take m :: genSplit sep n (s.drop (m + sep.length))

/-- strings.Split(s, sep). With an empty separator Go explodes s into its
characters; for ASCII text these are its bytes. -/
def Split (s sep : GoString) : List GoString :=
  if sep = [] then s.map (fun c => [c]) else genSplit sep s.length s

/-- strings.TrimLeft(s, cutset): drop the leading bytes that are in cutset. -/
def TrimLeft (s cutset : GoString) : GoString :=
  s.dropWhile (fun c => cutset.contains c)

/-- strings.TrimRight(s, cutset): drop the trailing bytes that are in cutset. -/
def TrimRight (s cutset : GoString) : GoString :=
  (s.reverse.dropWhile (fun c => cutset.contains c)).reverse

/-- A compiled regular expression of the shape `^lit.+`, the only shape the
source compiles: lit is the literal text. -/
structure Regexp where
  lit : GoString
  deriving DecidableEq, Repr

/-- Regexp.MatchString for `^lit.+`: the text starts with lit and at least one
more character follows it that is not a newline. The match is not anchored at the
end, so whatever follows that character is irrelevant; and the character is a
newline exactly when its first byte is 10 (a byte that starts no valid character
counts as a character of its own), so the test is on the byte after lit. -/
def Regexp.MatchString (re : Regexp) (s : GoString) : Bool :=
  re.lit.isPrefixOf s &&
    (match s.drop re.lit.length with
     | [] => false
     | c :: _ => c != 10)

/-- The pattern of server.go line 89. -/
def unsealPattern : Regexp := { lit := str "Unseal Key:" }

/-- The pattern of server.go line 90. -/
def rootTokenPattern : Regexp := { lit := str "Root Token:" }

/-! ## The scan of the process output (server.go, lines 87-117) -/

/-- The slice access parts[1]: a panic when the index is out of range. -/
def index1 (parts : List GoString) : Run GoString :=
  match parts.get? 1 with
  | some v => Run.ret v
  | none => Run.panic

/-- The body of the scan loop for one line (lines 96-116). The two Trim calls of
each branch are evaluated and their results dropped, as in the source. -/
def scanBody (t : VaultServer) (line : GoString) : Run VaultServer :=
  if t.UnsealKey = [] ∧ unsealPattern.MatchString line = true then
    let parts := Split line (str ": ")
    if parts.length > 1 then
      (index1 parts).bind fun v =>
        let t := { t with UnsealKey := v }
        let _ := TrimRight t.UnsealKey (str "\n")
        let _ := TrimLeft t.UnsealKey (str " ")
        Run.ret t
    else Run.ret t
  else if t.RootToken = [] ∧ rootTokenPattern.MatchString line = true then
    let parts := Split line (str ": ")
    if parts.length > 1 then
      (index1 parts).bind fun v =>
        let t := { t with RootToken := v }
        let _ := TrimRight t.RootToken (str "\n")
        let _ := TrimLeft t.RootToken (str " ")
        Run.ret t
    else Run.ret t
  else Run.ret t

/-- scanner.Scan() followed by scanner.Text() on the remaining output: the next
line, or the empty string once the stream has ended (Scan returns false, which the
source does not look at, and the token is empty). -/
def nextLine : List GoString → GoString × List GoString
  | [] => ([], [])
  | line :: rest => (line, rest)

/-- The scan loop (lines 92-117) with an iteration budget: when the budget is used
up and the guard still holds, the call is pending with the instance as it is. -/
def scanLoop : Nat → VaultServer → List GoString → Run VaultServer
  | fuel, t, out =>
    if t.UnsealKey = [] ∨ t.RootToken = [] then
      match fuel with
      | 0 => Run.pending t
      | fuel + 1 =>
        (scanBody t (nextLine out).1).bind fun t => scanLoop fuel t (nextLine out).2
    else Run.ret t

/-- The state of the scan after at most k passes of the loop body: the states
the loop goes through, whether or not it ever exits. -/
def scanIter : Nat → VaultServer → List GoString → Run VaultServer
  | 0, t, _ => Run.ret t
  | k + 1, t, out =>
    if t.UnsealKey = [] ∨ t.RootToken = [] then
      (scanBody t (nextLine out).1).bind fun t => scanIter k t (nextLine out).2
    else Run.ret t

/-! ## The host -/

/-- A file: its bytes and its permission bits. -/
structure File where
  data : GoString
  mode : Nat
  deriving DecidableEq, Repr

/-- The file system: what is stored under each path. -/
abbrev FS := GoString → Option File

/-- What the start operations read from the host. -/
structure Host where
  /-- homedir.Dir(): none when it returns an error -/
  homeDir : Option GoString
  /-- the files present when the operation starts -/
  fs : FS
  /-- whether ioutil.ReadFile fails on a file that is present -/
  readErr : Bool
  /-- exec.LookPath("vault"): none when it returns an error -/
  vault : Option GoString

/-- ioutil.ReadFile: the whole content, none for an error. -/
def ReadFile (h : Host) (name : GoString) : Option GoString :=
  if h.readErr then none else (h.fs name).map File.data

/-- ioutil.WriteFile when it succeeds: the file holds data; an existing file keeps
its permission bits, a new one is created with perm. -/
def WriteFile (fs : FS) (name data : GoString) (perm : Nat) : FS :=
  fun p =>
    if p = name then
      some { data := data
             mode := match fs name with
               | some f => f.mode
               | none => perm }
    else fs p

/-- Lines 55-69 of DevServerStart, repeated as lines 124-138 of ServerStart:
resolve the token file and keep its content when it can be read. -/
def captureUserToken (t : VaultServer) (h : Host) : Run VaultServer :=
  match h.homeDir with
  | none => Run.fatal
  | some homeDir =>
    let t := { t with UserTokenFile := homeDir ++ str "/.vault-token" }
    if (h.fs t.UserTokenFile).isSome then
      match ReadFile h t.UserTokenFile with
      | some tokenBytes => Run.ret { t with UserToken := tokenBytes }
      | none => Run.ret t
    else Run.ret t

/-- A child process that did start: its id and the lines it prints on its
standard output before that stream ends. -/
structure Started where
  Pid : Nat
  output : List GoString
  deriving DecidableEq, Repr

/-- What starting the dev server meets on the host. -/
structure DevSpawn where
  /-- whether Command.StdoutPipe() returns an error -/
  pipeErr : Bool
  /-- Command.Start(): none when it returns an error -/
  start : Option Started

/-- exec.Command(name, arg...): the argument list starts with the name; the process
is not started yet. -/
def Command (name : GoString) (arg : List GoString) : Cmd :=
  { Args := name :: arg, Process := none }

/-- Command.Start() seen from the caller, who drops the error: on success the
command holds the process and the pipe delivers its output; on failure the
command holds no process and the pipe, closed by Start, delivers nothing. -/
def startPiped (cmd : Cmd) : Option Started → Cmd × List GoString
  | some p => ({ cmd with Process := some { Pid := p.Pid } }, p.output)
  | none => (cmd, [])

/-- DevServerStart up to the scan (server.go, lines 54-91): the instance and the
output the scan loop starts with. -/
def devScanEntry (t : VaultServer) (h : Host) (sp : DevSpawn) :
    Run (VaultServer × List GoString) :=
  (captureUserToken t h).bind fun t =>
    match h.vault with
    | none => Run.fatal
    | some vault =>
      let cmd := Command vault
        [str "server", str "-dev", str "-dev-no-store-token", str "-dev-listen-address",
          t.Address]
      if sp.pipeErr then Run.fatal
      else
        let started := startPiped cmd sp.start
        Run.ret ({ t with Command := some started.1 }, started.2)

/-- DevServerStart (server.go, lines 54-120): the steps before the scan, the scan
loop, and then the assignment of line 119. -/
def DevServerStart (fuel : Nat) (t : VaultServer) (h : Host) (sp : DevSpawn) :
    Run VaultServer :=
  (devScanEntry t h sp).bind fun entry =>
    (scanLoop fuel entry.1 entry.2).bind fun t => Run.ret { t with Running := true }

/-- VAULT_CONFIG_TEMPLATE (lines 41-51) with its one verb filled in. -/
def vaultConfig (address : GoString) : GoString :=
  str "ui = true\ndisable_mlock = true\n\nlistener \"tcp\" \x7b\n\taddress           = \""
    ++ address
    ++ str "\"\n\t\n\ttls_disable       = \"true\"\n\x7d\n\nstorage \"inmem\" \x7b\x7d\n"

/-- ServerStart (server.go, lines 123-160). The error of Command.Start() is
dropped: start is none when the process could not be started. -/
def ServerStart (t : VaultServer) (h : Host) (start : Option Nat) : Run VaultServer :=
  (captureUserToken t h).bind fun t =>
    match h.vault with
    | none => Run.fatal
    | some vault =>
      let config := vaultConfig t.Address
      let configArg := str "-config=<(echo '" ++ config ++ str "')"
      let command := vault ++ str " server " ++ configArg
      let cmd := Command (str "bash") [str "-c", command]
      let cmd := { cmd with Process := start.map fun pid => { Pid := pid } }
      let t := { t with Command := some cmd }
      Run.ret { t with Running := true }

/-- The call t.Command.Process.Kill() of line 165: it dereferences the command
and its process, and panics when either is nil. -/
def killProcess (t : VaultServer) : Run Unit :=
  match t.Command with
  | none => Run.panic
  | some cmd =>
    match cmd.Process with
    | none => Run.panic
    | some _ => Run.ret ()

/-- ServerShutDown (server.go, lines 163-172): the file system it leaves, given the
file system it finds. The instance itself is not changed. The error of WriteFile is
dropped; a failed write is taken to leave the files as they were. -/
def ServerShutDown (t : VaultServer) (fs : FS) (writeErr : Bool) : Run FS :=
  (if t.Running then killProcess t else Run.ret ()).bind fun _ =>
    if t.UserToken ≠ [] then
      if writeErr then Run.ret fs
      else Run.ret (WriteFile fs t.UserTokenFile t.UserToken 0o600)
    else Run.ret fs

/-! ## The client (server.go, lines 175-193) -/

/-- The api.Config of the client library: its Address field and, as one value, all
its other settings. -/
structure Config (σ : Type) where
  Address : GoString
  settings : σ

/-- The api.Client of the client library as its accessors show it: the base
address, the token, and everything else as one value. -/
structure Client (κ : Type) where
  addr : GoString
  token : GoString
  internals : κ

/-- Client.SetToken: attach the token. -/
def Client.SetToken {κ : Type} (c : Client κ) (v : GoString) : Client κ :=
  { c with token := v }

/-- The operations of the client library (github.com/hashicorp/vault/api, not part
of this repository) that read the ambient environment or may fail; they are
parameters of the model. -/
structure VaultAPI (σ κ : Type) where
  /-- api.DefaultConfig() -/
  DefaultConfig : Config σ
  /-- config.ReadEnvironment(): the configuration after the environment has been
  merged in, none for an error -/
  ReadEnvironment : Config σ → Option (Config σ)
  /-- api.NewClient(config): none for an error -/
  NewClient : Config σ → Option (Client κ)

/-- VaultTestClient (server.go, lines 175-193). -/
def VaultTestClient {σ κ : Type} (api : VaultAPI σ κ) (t : VaultServer) : Run (Client κ) :=
  let config := api.DefaultConfig
  match api.ReadEnvironment config with
  | none => Run.fatal
  | some config =>
    let config := { config with Address := str "http://" ++ t.Address }
    match api.NewClient config with
    | none => Run.fatal
    | some client => Run.ret (client.SetToken t.RootToken)

/-- The text Split puts at index 1, given what follows the first separator: its
part before the next separator, or all of it when there is none. -/
def firstPart (rest : GoString) : GoString :=
  match Index rest (str ": ") with
  | none => rest
  | some m => rest.take m

/-! ## Sample hosts, outputs and instances used to evaluate the model -/

/-- A host on which the dev server can be started. -/
def sampleHost : Host :=
  { homeDir := some (str "/home/dev")
    fs := fun _ => none
    readErr := false
    vault := some (str "/usr/local/bin/vault") }

/-- A dev server that prints its banner and both credentials. -/
def sampleSpawn : DevSpawn :=
  { pipeErr := false
    start := some
      { Pid := 4711
        output := [str "==> Vault server configuration:", str "Unseal Key: abc123",
          str "Root Token: s.XyZ", str "Development mode should NOT be used"] } }

/-- A dev server whose output ends after the unseal key. -/
def unsealOnlySpawn : DevSpawn :=
  { pipeErr := false
    start := some { Pid := 4711, output := [str "Unseal Key: abc123"] } }

/-- The client library in an environment where VAULT_AGENT_ADDR names an agent at
http://agent.example:8100. The settings of a configuration, other than Address,
are here its agent address: DefaultConfig has none, ReadEnvironment takes it from
the environment, and NewClient builds the client on the agent address when there
is one and on Address otherwise; the environment names no token. -/
def agentAPI : VaultAPI GoString Unit :=
  { DefaultConfig := { Address := str "https://127.0.0.1:8200", settings := [] }
    ReadEnvironment := fun cfg => some { cfg with settings := str "http://agent.example:8100" }
    NewClient := fun cfg =>
      some { addr := if cfg.settings = [] then cfg.Address else cfg.settings
             token := []
             internals := () } }

/-- A dev-mode instance at 127.0.0.1:8300 whose scan found the root token "s.XyZ". -/
def devInstance : VaultServer :=
  { NewVaultServer (str "127.0.0.1:8300") with
    UnsealKey := str "abc123", RootToken := str "s.XyZ", Running := true }

/-- A host on which the user token file exists and holds the given bytes. -/
def hostWithToken (c : GoString) : Host :=
  { homeDir := some (str "/home/dev")
    fs := fun p => if p = str "/home/dev/.vault-token" then some { data := c, mode := 0o644 }
      else none
    readErr := false
    vault := some (str "/usr/local/bin/vault") }

/-- The files at shutdown when the server process has written its own token to
the user token file. -/
def serverWrote : FS := fun p =>
  if p = str "/home/dev/.vault-token" then some { data := str "s.devRoot", mode := 0o644 }
  else none

/-! ## Basic facts -/

theorem str_sep : str ": " = [58, 32] := rfl

theorem str_unseal : str "Unseal Key:" = [85, 110, 115, 101, 97, 108, 32, 75, 101, 121, 58] := rfl

theorem str_root : str "Root Token:" = [82, 111, 111, 116, 32, 84, 111, 107, 101, 110, 58] := rfl

namespace Run

@[simp]
theorem bind_ret {α β : Type} (a : α) (f : α → Run β) : (ret a).bind f = f a := rfl

@[simp]
theorem bind_panic {α β : Type} (f : α → Run β) : (panic : Run α).bind f = panic := rfl

@[simp]
theorem bind_fatal {α β : Type} (f : α → Run β) : (fatal : Run α).bind f = fatal := rfl

@[simp]
theorem bind_pending {α β : Type} (s : VaultServer) (f : α → Run β) :
    (pending s : Run α).bind f = pending s := rfl

theorem bind_eq_ret {α β : Type} {m : Run α} {f : α → Run β} {b : β} :
    m.bind f = ret b ↔ ∃ a, m = ret a ∧ f a = ret b := by
  cases m <;> simp

theorem bind_eq_pending {α β : Type} {m : Run α} {f : α → Run β} {s : VaultServer} :
    m.bind f = pending s ↔ m = pending s ∨ ∃ a, m = ret a ∧ f a = pending s := by
  cases m <;> simp

theorem bind_assoc {α β γ : Type} (m : Run α) (f : α → Run β) (g : β → Run γ) :
    (m.bind f).bind g = m.bind fun a => (f a).bind g := by
  cases m <;> rfl

end Run

theorem index1_of_length {parts : List GoString} (h : parts.length > 1) :
    index1 parts = Run.ret (parts.get ⟨1, h⟩) := by
  unfold index1
  rw [List.get?_eq_get h]

/-- The three ways a pass of the loop body can end: nothing stored, the unseal
key stored, the root token stored. It never panics. -/
theorem scanBody_cases (t : VaultServer) (line : GoString) :
    scanBody t line = Run.ret t
    ∨ (t.UnsealKey = [] ∧ unsealPattern.MatchString line = true
        ∧ ∃ v, (Split line (str ": ")).get? 1 = some v
          ∧ scanBody t line = Run.ret { t with UnsealKey := v })
    ∨ (t.RootToken = [] ∧ rootTokenPattern.MatchString line = true
        ∧ ¬ (t.UnsealKey = [] ∧ unsealPattern.MatchString line = true)
        ∧ ∃ v, (Split line (str ": ")).get? 1 = some v
          ∧ scanBody t line = Run.ret { t with RootToken := v }) := by
  unfold scanBody
  by_cases hu : t.UnsealKey = [] ∧ unsealPattern.MatchString line = true
  · rw [if_pos hu]
    by_cases hl : (Split line (str ": ")).length > 1
    · right; left
      refine ⟨hu.1, hu.2, (Split line (str ": ")).get ⟨1, hl⟩, List.get?_eq_get hl, ?_⟩
      simp only [if_pos hl, index1_of_length hl, Run.bind_ret]
    · left
      simp only [if_neg hl]
  · rw [if_neg hu]
    by_cases hr : t.RootToken = [] ∧ rootTokenPattern.MatchString line = true
    · rw [if_pos hr]
      by_cases hl : (Split line (str ": ")).length > 1
      · right; right
        refine ⟨hr.1, hr.2, hu, (Split line (str ": ")).get ⟨1, hl⟩, List.get?_eq_get hl, ?_⟩
        simp only [if_pos hl, index1_of_length hl, Run.bind_ret]
      · left
        simp only [if_neg hl]
    · left
      rw [if_neg hr]

/-- A pass of the loop body always returns. -/
theorem scanBody_returns (t : VaultServer) (line : GoString) :
    ∃ t', scanBody t line = Run.ret t' := by
  rcases scanBody_cases t line with h | ⟨_, _, v, _, h⟩ | ⟨_, _, _, v, _, h⟩
  · exact ⟨_, h⟩
  · exact ⟨_, h⟩
  · exact ⟨_, h⟩

/-- A pass of the loop body writes no field but the two credentials. -/
theorem scanBody_frame {t t' : VaultServer} {line : GoString}
    (h : scanBody t line = Run.ret t') :
    t'.Running = t.Running ∧ t'.Command = t.Command ∧ t'.UserToken = t.UserToken
      ∧ t'.UserTokenFile = t.UserTokenFile ∧ t'.Address = t.Address := by
  rcases scanBody_cases t line with h1 | ⟨_, _, v, _, h1⟩ | ⟨_, _, _, v, _, h1⟩ <;>
    · rw [h1] at h
      cases h
      simp

/-- A credential that is set is not written again by a pass of the loop body. -/
theorem scanBody_keeps {t t' : VaultServer} {line : GoString}
    (h : scanBody t line = Run.ret t') :
    (t.UnsealKey ≠ [] → t'.UnsealKey = t.UnsealKey)
      ∧ (t.RootToken ≠ [] → t'.RootToken = t.RootToken) := by
  rcases scanBody_cases t line with h1 | ⟨hu, _, v, _, h1⟩ | ⟨hr, _, _, v, _, h1⟩ <;>
    · rw [h1] at h
      cases h
      simp_all

theorem matchString_nil (re : Regexp) : re.MatchString [] = false := by
  unfold Regexp.MatchString
  simp

/-- At end of stream the line is empty and the loop body stores nothing. -/
theorem scanBody_nil (t : VaultServer) : scanBody t [] = Run.ret t := by
  unfold scanBody
  simp [matchString_nil]

theorem scanLoop_zero (t : VaultServer) (out : List GoString) :
    scanLoop 0 t out
      = if t.UnsealKey = [] ∨ t.RootToken = [] then Run.pending t else Run.ret t := by
  rw [scanLoop]

theorem scanLoop_succ (fuel : Nat) (t : VaultServer) (out : List GoString) :
    scanLoop (fuel + 1) t out =
      if t.UnsealKey = [] ∨ t.RootToken = [] then
        (scanBody t (nextLine out).1).bind fun t => scanLoop fuel t (nextLine out).2
      else Run.ret t := by
  rw [scanLoop]

/-- Once the stream has ended, a scan that still lacks a credential never exits. -/
theorem scanLoop_nil_pending (t : VaultServer) (h : t.UnsealKey = [] ∨ t.RootToken = []) :
    ∀ fuel, scanLoop fuel t [] = Run.pending t := by
  intro fuel
  induction fuel with
  | zero => rw [scanLoop_zero, if_pos h]
  | succ n ih =>
    rw [scanLoop_succ, if_pos h]
    simp only [nextLine, scanBody_nil, Run.bind_ret]
    exact ih

/-- The loop exits only with both credentials set. -/
theorem scanLoop_exit {fuel : Nat} {t t' : VaultServer} {out : List GoString}
    (h : scanLoop fuel t out = Run.ret t') : t'.UnsealKey ≠ [] ∧ t'.RootToken ≠ [] := by
  induction fuel generalizing t out with
  | zero =>
    rw [scanLoop_zero] at h
    by_cases hg : t.UnsealKey = [] ∨ t.RootToken = []
    · rw [if_pos hg] at h
      cases h
    · rw [if_neg hg] at h
      cases h
      exact not_or.mp hg
  | succ n ih =>
    rw [scanLoop_succ] at h
    by_cases hg : t.UnsealKey = [] ∨ t.RootToken = []
    · rw [if_pos hg] at h
      obtain ⟨t1, _, h2⟩ := Run.bind_eq_ret.mp h
      exact ih h2
    · rw [if_neg hg] at h
      cases h
      exact not_or.mp hg

/-- The loop writes no field but the two credentials. -/
theorem scanLoop_frame {fuel : Nat} {t t' : VaultServer} {out : List GoString}
    (h : scanLoop fuel t out = Run.ret t') :
    t'.Running = t.Running ∧ t'.Command = t.Command ∧ t'.UserToken = t.UserToken
      ∧ t'.UserTokenFile = t.UserTokenFile ∧ t'.Address = t.Address := by
  induction fuel generalizing t out with
  | zero =>
    rw [scanLoop_zero] at h
    by_cases hg : t.UnsealKey = [] ∨ t.RootToken = []
    · rw [if_pos hg] at h
      cases h
    · rw [if_neg hg] at h
      cases h
      simp
  | succ n ih =>
    rw [scanLoop_succ] at h
    by_cases hg : t.UnsealKey = [] ∨ t.RootToken = []
    · rw [if_pos hg] at h
      obtain ⟨t1, h1, h2⟩ := Run.bind_eq_ret.mp h
      have f1 := scanBody_frame h1
      have f2 := ih h2
      exact ⟨f2.1.trans f1.1, f2.2.1.trans f1.2.1, f2.2.2.1.trans f1.2.2.1,
        f2.2.2.2.1.trans f1.2.2.2.1, f2.2.2.2.2.trans f1.2.2.2.2⟩
    · rw [if_neg hg] at h
      cases h
      simp

/-- The states the scan goes through differ from its first state in the two
credentials only. -/
theorem scanIter_frame {k : Nat} {t s : VaultServer} {out : List GoString}
    (h : scanIter k t out = Run.ret s) :
    s.Running = t.Running ∧ s.Command = t.Command ∧ s.UserToken = t.UserToken
      ∧ s.UserTokenFile = t.UserTokenFile ∧ s.Address = t.Address := by
  induction k generalizing t out with
  | zero =>
    rw [scanIter] at h
    cases h
    simp
  | succ n ih =>
    rw [scanIter] at h
    by_cases hg : t.UnsealKey = [] ∨ t.RootToken = []
    · rw [if_pos hg] at h
      obtain ⟨t1, h1, h2⟩ := Run.bind_eq_ret.mp h
      have f1 := scanBody_frame h1
      have f2 := ih h2
      exact ⟨f2.1.trans f1.1, f2.2.1.trans f1.2.1, f2.2.2.1.trans f1.2.2.1,
        f2.2.2.2.1.trans f1.2.2.2.1, f2.2.2.2.2.trans f1.2.2.2.2⟩
    · rw [if_neg hg] at h
      cases h
      simp

/-- A credential that is set at some point of the scan has the same value in
every later state. -/
theorem scanIter_keeps {k : Nat} {t s : VaultServer} {out : List GoString}
    (h : scanIter k t out = Run.ret s) :
    (t.UnsealKey ≠ [] → s.UnsealKey = t.UnsealKey)
      ∧ (t.RootToken ≠ [] → s.RootToken = t.RootToken) := by
  induction k generalizing t out with
  | zero =>
    rw [scanIter] at h
    cases h
    simp
  | succ n ih =>
    rw [scanIter] at h
    by_cases hg : t.UnsealKey = [] ∨ t.RootToken = []
    · rw [if_pos hg] at h
      obtain ⟨t1, h1, h2⟩ := Run.bind_eq_ret.mp h
      have f1 := scanBody_keeps h1
      have f2 := ih h2
      constructor
      · intro hne
        have e1 := f1.1 hne
        rw [← e1]
        exact f2.1 (by rw [e1]; exact hne)
      · intro hne
        have e1 := f1.2 hne
        rw [← e1]
        exact f2.2 (by rw [e1]; exact hne)
    · rw [if_neg hg] at h
      cases h
      simp

/-- The loop and its sequence of states agree: when the loop exits within the
budget, it exits in the state reached after that many passes. -/
theorem scanLoop_eq_scanIter {fuel : Nat} {t t' : VaultServer} {out : List GoString}
    (h : scanLoop fuel t out = Run.ret t') : scanIter fuel t out = Run.ret t' := by
  induction fuel generalizing t out with
  | zero =>
    rw [scanLoop_zero] at h
    by_cases hg : t.UnsealKey = [] ∨ t.RootToken = []
    · rw [if_pos hg] at h
      cases h
    · rw [if_neg hg] at h
      rw [scanIter]
      exact h
  | succ n ih =>
    rw [scanLoop_succ] at h
    rw [scanIter]
    by_cases hg : t.UnsealKey = [] ∨ t.RootToken = []
    · rw [if_pos hg] at h
      rw [if_pos hg]
      obtain ⟨t1, h1, h2⟩ := Run.bind_eq_ret.mp h
      rw [h1, Run.bind_ret]
      exact ih h2
    · rw [if_neg hg] at h
      rw [if_neg hg]
      exact h

/-- Enough budget gives the result: when the state after k passes has both
credentials, the loop with budget k exits in that state. -/
theorem scanLoop_of_scanIter {k : Nat} {t s : VaultServer} {out : List GoString}
    (h : scanIter k t out = Run.ret s) (hs : ¬ (s.UnsealKey = [] ∨ s.RootToken = [])) :
    scanLoop k t out = Run.ret s := by
  induction k generalizing t out with
  | zero =>
    rw [scanIter] at h
    cases h
    rw [scanLoop_zero, if_neg hs]
  | succ n ih =>
    rw [scanIter] at h
    rw [scanLoop_succ]
    by_cases hg : t.UnsealKey = [] ∨ t.RootToken = []
    · rw [if_pos hg] at h
      rw [if_pos hg]
      obtain ⟨t1, h1, h2⟩ := Run.bind_eq_ret.mp h
      rw [h1, Run.bind_ret]
      exact ih h2
    · rw [if_neg hg] at h
      rw [if_neg hg]
      exact h

/-- The result of the loop does not depend on the budget once it is large enough. -/
theorem scanLoop_mono {fuel : Nat} {t t' : VaultServer} {out : List GoString}
    (h : scanLoop fuel t out = Run.ret t') : scanLoop (fuel + 1) t out = Run.ret t' := by
  induction fuel generalizing t out with
  | zero =>
    rw [scanLoop_zero] at h
    rw [scanLoop_succ]
    by_cases hg : t.UnsealKey = [] ∨ t.RootToken = []
    · rw [if_pos hg] at h
      cases h
    · rw [if_neg hg] at h
      rw [if_neg hg]
      exact h
  | succ n ih =>
    rw [scanLoop_succ] at h
    rw [scanLoop_succ]
    by_cases hg : t.UnsealKey = [] ∨ t.RootToken = []
    · rw [if_pos hg] at h
      rw [if_pos hg]
      obtain ⟨t1, h1, h2⟩ := Run.bind_eq_ret.mp h
      rw [h1, Run.bind_ret]
      exact ih h2
    · rw [if_neg hg] at h
      rw [if_neg hg]
      exact h

/-- A loop that is still running lacks a credential, and has written no field
but the two credentials. -/
theorem scanLoop_pending_frame {fuel : Nat} {t s : VaultServer} {out : List GoString}
    (h : scanLoop fuel t out = Run.pending s) :
    (s.UnsealKey = [] ∨ s.RootToken = []) ∧ s.Running = t.Running
      ∧ s.Command = t.Command := by
  induction fuel generalizing t out with
  | zero =>
    rw [scanLoop_zero] at h
    by_cases hg : t.UnsealKey = [] ∨ t.RootToken = []
    · rw [if_pos hg] at h
      cases h
      exact ⟨hg, rfl, rfl⟩
    · rw [if_neg hg] at h
      cases h
  | succ n ih =>
    rw [scanLoop_succ] at h
    by_cases hg : t.UnsealKey = [] ∨ t.RootToken = []
    · rw [if_pos hg] at h
      obtain ⟨t1, h1⟩ := scanBody_returns t (nextLine out).1
      rw [h1, Run.bind_ret] at h
      have f1 := scanBody_frame h1
      have f2 := ih h
      exact ⟨f2.1, f2.2.1.trans f1.1, f2.2.2.trans f1.2.1⟩
    · rw [if_neg hg] at h
      cases h

/-- The states of the scan are always defined: the loop body never panics. -/
theorem scanIter_returns (k : Nat) (t : VaultServer) (out : List GoString) :
    ∃ s, scanIter k t out = Run.ret s := by
  induction k generalizing t out with
  | zero => exact ⟨t, by rw [scanIter]⟩
  | succ n ih =>
    rw [scanIter]
    by_cases hg : t.UnsealKey = [] ∨ t.RootToken = []
    · rw [if_pos hg]
      obtain ⟨t1, h1⟩ := scanBody_returns t (nextLine out).1
      rw [h1, Run.bind_ret]
      exact ih t1 _
    · rw [if_neg hg]
      exact ⟨t, rfl⟩

/-- Once both credentials are set the scan has stopped: further passes change
nothing, whatever output is left. -/
theorem scanIter_done (k : Nat) {t : VaultServer} (out : List GoString)
    (hg : ¬ (t.UnsealKey = [] ∨ t.RootToken = [])) : scanIter k t out = Run.ret t := by
  cases k with
  | zero => rw [scanIter]
  | succ n => rw [scanIter, if_neg hg]

/-- The state after n + m passes is the state after m passes from the state
after n passes, on the output left then. -/
theorem scanIter_add (n m : Nat) (t : VaultServer) (out : List GoString) :
    scanIter (n + m) t out = (scanIter n t out).bind fun s => scanIter m s (out.drop n) := by
  induction n generalizing t out with
  | zero =>
    rw [Nat.zero_add, scanIter, Run.bind_ret, List.drop_zero]
  | succ n ih =>
    rw [Nat.add_right_comm, scanIter, scanIter]
    by_cases hg : t.UnsealKey = [] ∨ t.RootToken = []
    · rw [if_pos hg, if_pos hg, Run.bind_assoc]
      have hd : out.drop (n + 1) = (nextLine out).2.drop n := by
        cases out with
        | nil => simp [nextLine]
        | cons l r => simp [nextLine]
      rw [hd]
      congr 1
      funext t1
      exact ih t1 _
    · rw [if_neg hg, if_neg hg, Run.bind_ret, scanIter_done m _ hg]

/-- When the loop has exited, the state of the scan stays the one it exited in. -/
theorem scanIter_of_scanLoop {fuel : Nat} {t t' : VaultServer} {out : List GoString}
    (h : scanLoop fuel t out = Run.ret t') (j : Nat) :
    scanIter (fuel + j) t out = Run.ret t' := by
  rw [scanIter_add, scanLoop_eq_scanIter h, Run.bind_ret]
  exact scanIter_done j _ (not_or.mpr (scanLoop_exit h))

/-! ## Facts about Index and Split for the separator ": " -/

theorem isPrefixOf_sep (s : GoString) :
    (str ": ").isPrefixOf s = true ↔ ∃ r, s = 58 :: 32 :: r := by
  rw [str_sep]
  rcases s with _ | ⟨c, _ | ⟨d, r⟩⟩
  · simp [List.isPrefixOf]
  · simp [List.isPrefixOf]
  · simp only [List.isPrefixOf, Bool.and_true, Bool.and_eq_true, beq_iff_eq]
    constructor
    · rintro ⟨h1, h2⟩
      exact ⟨r, by rw [← h1, ← h2]⟩
    · rintro ⟨q, hq⟩
      simp only [List.cons.injEq] at hq
      exact ⟨hq.1.symm, hq.2.1.symm⟩

/-- Index finds nothing in a text that does not contain the separator. -/
theorem Index_none {s : GoString} (h : ¬ str ": " <:+: s) : Index s (str ": ") = none := by
  induction s with
  | nil => simp [Index, str_sep]
  | cons c rest ih =>
    rw [Index]
    have hp : ¬ (str ": ").isPrefixOf (c :: rest) = true := by
      intro hp
      exact h ( List.isPrefixOf_iff_prefix.mp hp).isInfix
    rw [if_neg hp, ih (fun hi => h (List.infix_cons hi))]
    rfl

/-- Index finds the first occurrence of the separator: the one that no
occurrence starts before. -/
theorem Index_first {a : GoString} (r : GoString) (h : ¬ str ": " <:+: a ++ str ":") :
    Index (a ++ (str ": " ++ r)) (str ": ") = some a.length := by
  induction a with
  | nil =>
    rw [List.nil_append, Index.eq_def]
    simp [str_sep, List.isPrefixOf]
  | cons x a ih =>
    rw [List.cons_append, Index]
    have hp : ¬ (str ": ").isPrefixOf (x :: (a ++ (str ": " ++ r))) = true := by
      intro hp
      obtain ⟨q, hq⟩ := (isPrefixOf_sep _).mp hp
      apply h
      rcases a with _ | ⟨y, a⟩
      · simp [str_sep] at hq
      · simp only [List.cons_append, List.cons.injEq] at hq
        obtain ⟨hx, hy, _⟩ := hq
        subst hx
        subst hy
        rw [str_sep]
        exact ⟨[], a ++ str ":", by simp⟩
    rw [if_neg hp, ih (fun hi => h (by rw [List.cons_append]; exact List.infix_cons hi))]
    rfl

/-- An occurrence found by Index lies inside the text. -/
theorem Index_le {s : GoString} {m : Nat} (h : Index s (str ": ") = some m) :
    m + 2 ≤ s.length := by
  induction s generalizing m with
  | nil => simp [Index, str_sep] at h
  | cons c rest ih =>
    rw [Index] at h
    by_cases hp : (str ": ").isPrefixOf (c :: rest) = true
    · rw [if_pos hp] at h
      obtain ⟨q, hq⟩ := (isPrefixOf_sep _).mp hp
      cases h
      rw [hq]
      simp
    · rw [if_neg hp] at h
      cases hi : Index rest (str ": ") with
      | none => rw [hi] at h; cases h
      | some k =>
        rw [hi] at h
        cases h
        have := ih hi
        simp only [List.length_cons]
        omega

/-- A text that starts with something other than the separator has no occurrence
at position 0. -/
theorem Index_pos {s : GoString} {m : Nat} (h : Index s (str ": ") = some m)
    (hs : ¬ ∃ r, s = 58 :: 32 :: r) : 0 < m := by
  cases s with
  | nil => simp [Index, str_sep] at h
  | cons c rest =>
    rw [Index] at h
    have hp : ¬ (str ": ").isPrefixOf (c :: rest) = true := fun hp =>
      hs ((isPrefixOf_sep _).mp hp)
    rw [if_neg hp] at h
    cases hi : Index rest (str ": ") with
    | none => rw [hi] at h; cases h
    | some k =>
      rw [hi] at h
      simp only [Option.map_some', Option.some.injEq] at h
      omega

theorem Split_none {s : GoString} (h : Index s (str ": ") = none) :
    Split s (str ": ") = [s] := by
  unfold Split
  rw [if_neg (by simp [str_sep])]
  cases s.length with
  | zero => rfl
  | succ n => simp only [genSplit, h]

theorem Split_some {s : GoString} {m : Nat} (h : Index s (str ": ") = some m) :
    ∃ more, Split s (str ": ") = s.take m :: firstPart (s.drop (m + 2)) :: more := by
  unfold Split
  rw [if_neg (by simp [str_sep])]
  obtain ⟨k, hk⟩ : ∃ k, s.length = k + 2 := ⟨s.length - 2, by have := Index_le h; omega⟩
  rw [hk]
  have hlen : (str ": ").length = 2 := rfl
  simp only [genSplit, h, hlen, firstPart]
  cases hi : Index (List.drop (m + 2) s) (str ": ") with
  | none => exact ⟨[], rfl⟩
  | some m2 => exact ⟨_, rfl⟩

/-- The number of rounds given to genSplit is never what stops it: any two
bounds that are at least the length of the text give the same parts. -/
theorem genSplit_budget (n : Nat) :
    ∀ (m : Nat) (s : GoString), s.length ≤ n → s.length ≤ m →
      genSplit (str ": ") n s = genSplit (str ": ") m s := by
  induction n with
  | zero =>
    intro m s hn _
    have hs : s = [] := List.length_eq_zero.mp (Nat.le_zero.mp hn)
    subst hs
    cases m with
    | zero => rfl
    | succ m => simp [genSplit, Index, str_sep]
  | succ n ih =>
    intro m s hn hm
    cases m with
    | zero =>
      have hs : s = [] := List.length_eq_zero.mp (Nat.le_zero.mp hm)
      subst hs
      simp [genSplit, Index, str_sep]
    | succ m =>
      simp only [genSplit]
      cases hi : Index s (str ": ") with
      | none => rfl
      | some k =>
        have hk := Index_le hi
        have hlen : (str ": ").length = 2 := rfl
        simp only [hlen]
        rw [ih m (s.drop (k + 2)) (by rw [List.length_drop]; omega)
          (by rw [List.length_drop]; omega)]

/-! ## What the loop body stores -/

/-- A line cannot match both patterns: they differ in their first byte. -/
theorem root_excludes_unseal {line : GoString}
    (h : rootTokenPattern.MatchString line = true) :
    unsealPattern.MatchString line = false := by
  unfold Regexp.MatchString at h ⊢
  simp only [rootTokenPattern, unsealPattern, str_root, str_unseal] at h ⊢
  cases line with
  | nil => simp
  | cons c rest =>
    have hc : c = 82 := by
      simp only [List.isPrefixOf, Bool.and_eq_true, beq_iff_eq] at h
      exact h.1.1.symm
    subst hc
    simp [List.isPrefixOf]

/-- An honoured unseal line: nothing is stored when the line holds no separator,
and otherwise the part that follows the first separator and ends before the next. -/
theorem scanBody_unseal_eq {t : VaultServer} {line : GoString} (hu : t.UnsealKey = [])
    (hm : unsealPattern.MatchString line = true) :
    scanBody t line = Run.ret
      (match Index line (str ": ") with
       | none => t
       | some m => { t with UnsealKey := firstPart (line.drop (m + 2)) }) := by
  unfold scanBody
  rw [if_pos ⟨hu, hm⟩]
  cases hi : Index line (str ": ") with
  | none => simp [Split_none hi]
  | some m =>
    obtain ⟨more, hs⟩ := Split_some hi
    simp [hs, index1]

/-- An honoured root-token line: as for the unseal line. -/
theorem scanBody_root_eq {t : VaultServer} {line : GoString} (hr : t.RootToken = [])
    (hm : rootTokenPattern.MatchString line = true) :
    scanBody t line = Run.ret
      (match Index line (str ": ") with
       | none => t
       | some m => { t with RootToken := firstPart (line.drop (m + 2)) }) := by
  unfold scanBody
  have hn : ¬ (t.UnsealKey = [] ∧ unsealPattern.MatchString line = true) := by
    rw [root_excludes_unseal hm]
    simp
  rw [if_neg hn, if_pos ⟨hr, hm⟩]
  cases hi : Index line (str ": ") with
  | none => simp [Split_none hi]
  | some m =>
    obtain ⟨more, hs⟩ := Split_some hi
    simp [hs, index1]

theorem firstPart_of_none {b : GoString} (hb : ¬ str ": " <:+: b) : firstPart b = b := by
  unfold firstPart
  rw [Index_none hb]

theorem firstPart_of_first {b : GoString} (d : GoString) (hb : ¬ str ": " <:+: b ++ str ":") :
    firstPart (b ++ (str ": " ++ d)) = b := by
  unfold firstPart
  rw [Index_first d hb]
  simp

/-- What follows the first separator of a line that begins with a text free of
earlier occurrences. -/
theorem drop_first (a rest : GoString) :
    (a ++ (str ": " ++ rest)).drop (a.length + 2) = rest := by
  rw [str_sep]
  simp [List.drop_append]

theorem firstPart_ne_nil {k : GoString} (hk : k ≠ []) (hs : ¬ ∃ r, k = str ": " ++ r) :
    firstPart k ≠ [] := by
  unfold firstPart
  cases hi : Index k (str ": ") with
  | none => exact hk
  | some m =>
    have hpos : 0 < m := Index_pos hi (by rw [str_sep] at hs; exact hs)
    cases k with
    | nil => exact absurd rfl hk
    | cons c rest =>
      obtain ⟨n, rfl⟩ : ∃ n, m = n + 1 := ⟨m - 1, by omega⟩
      simp

theorem firstPart_isPrefix (k : GoString) : firstPart k <+: k := by
  unfold firstPart
  cases Index k (str ": ") with
  | none => exact List.prefix_refl k
  | some m => exact List.take_prefix m k

/-- The text stored is empty exactly when what follows the first separator is
empty or begins with another separator. -/
theorem firstPart_eq_nil_iff (k : GoString) :
    firstPart k = [] ↔ (k = [] ∨ ∃ r, k = str ": " ++ r) := by
  constructor
  · intro h
    by_contra hn
    rw [not_or] at hn
    exact firstPart_ne_nil hn.1 hn.2 h
  · rintro (rfl | ⟨r, rfl⟩)
    · rfl
    · have h0 : ¬ str ": " <:+: ([] : GoString) ++ str ":" := by decide
      have h1 := Index_first (a := []) r h0
      unfold firstPart
      rw [List.nil_append] at h1
      rw [h1]
      rfl

/-- An unseal line written as the label, the separator and a text k: it is
honoured when the key is unset, and what is stored is k up to its first ": ". -/
theorem scanBody_unseal_line (t : VaultServer) (k : GoString) (hu : t.UnsealKey = []) :
    scanBody t (str "Unseal Key: " ++ k) = Run.ret { t with UnsealKey := firstPart k } := by
  have e : str "Unseal Key: " ++ k = str "Unseal Key" ++ (str ": " ++ k) := by
    have e0 : str "Unseal Key: " = str "Unseal Key" ++ str ": " := rfl
    rw [e0, List.append_assoc]
  have hm : unsealPattern.MatchString (str "Unseal Key: " ++ k) = true := by
    have e1 : str "Unseal Key: "
        = [85, 110, 115, 101, 97, 108, 32, 75, 101, 121, 58, 32] := rfl
    rw [e1]
    simp [Regexp.MatchString, unsealPattern, str_unseal, List.isPrefixOf]
  have ha : ¬ str ": " <:+: str "Unseal Key" ++ str ":" := by decide
  rw [scanBody_unseal_eq hu hm, e, Index_first _ ha]
  simp only [drop_first]

/-! ## Facts about the start operations -/

/-- Capturing the user token writes UserTokenFile and UserToken only. -/
theorem captureUserToken_frame {t t1 : VaultServer} {h : Host}
    (hc : captureUserToken t h = Run.ret t1) :
    t1.Running = t.Running ∧ t1.UnsealKey = t.UnsealKey ∧ t1.RootToken = t.RootToken
      ∧ t1.Command = t.Command ∧ t1.Address = t.Address := by
  unfold captureUserToken at hc
  split at hc
  · cases hc
  · dsimp only at hc
    split at hc
    · split at hc <;>
        · cases hc
          simp
    · cases hc
      simp

/-- The scan starts with the credentials and the running flag the instance had
when DevServerStart was called. -/
theorem devScanEntry_frame {t : VaultServer} {h : Host} {sp : DevSpawn}
    {entry : VaultServer × List GoString} (he : devScanEntry t h sp = Run.ret entry) :
    entry.1.Running = t.Running ∧ entry.1.UnsealKey = t.UnsealKey
      ∧ entry.1.RootToken = t.RootToken := by
  unfold devScanEntry at he
  obtain ⟨t1, h1, h2⟩ := Run.bind_eq_ret.mp he
  have f := captureUserToken_frame h1
  split at h2
  · cases h2
  · split at h2
    · cases h2
    · cases h2
      exact ⟨f.1, f.2.1, f.2.2.1⟩

/-- The steps before the scan hold no loop: they return or end the process. -/
theorem devScanEntry_not_pending (t s : VaultServer) (h : Host) (sp : DevSpawn) :
    devScanEntry t h sp ≠ Run.pending s := by
  intro he
  unfold devScanEntry captureUserToken at he
  rcases Run.bind_eq_pending.mp he with h1 | ⟨t1, _, h2⟩
  · split at h1
    · cases h1
    · dsimp only at h1
      split at h1
      · split at h1 <;> cases h1
      · cases h1
  · split at h2
    · cases h2
    · split at h2 <;> cases h2

/-- DevServerStart has not returned as long as its scan loop has not exited, and
the instance then is the one the loop has left. -/
theorem DevServerStart_pending {fuel : Nat} {t s : VaultServer} {h : Host} {sp : DevSpawn}
    {entry : VaultServer × List GoString} (he : devScanEntry t h sp = Run.ret entry)
    (hl : scanLoop fuel entry.1 entry.2 = Run.pending s) :
    DevServerStart fuel t h sp = Run.pending s := by
  unfold DevServerStart
  rw [he, Run.bind_ret, hl, Run.bind_pending]

/-- A pending DevServerStart is in its scan loop. -/
theorem DevServerStart_pending_inv {fuel : Nat} {t s : VaultServer} {h : Host} {sp : DevSpawn}
    (hp : DevServerStart fuel t h sp = Run.pending s) :
    ∃ entry, devScanEntry t h sp = Run.ret entry
      ∧ scanLoop fuel entry.1 entry.2 = Run.pending s := by
  unfold DevServerStart at hp
  rcases Run.bind_eq_pending.mp hp with h1 | ⟨entry, he, h2⟩
  · exact absurd h1 (devScanEntry_not_pending t s h sp)
  · refine ⟨entry, he, ?_⟩
    rcases Run.bind_eq_pending.mp h2 with h3 | ⟨t1, _, h4⟩
    · exact h3
    · cases h4

/-- An output that ends after the unseal key: the loop never exits, and from the
first pass on the instance holds the key and no root token. -/
theorem scanLoop_unseal_only (t : VaultServer) (hu : t.UnsealKey = []) (hr : t.RootToken = [])
    (fuel : Nat) :
    scanLoop fuel t [str "Unseal Key: abc123"]
      = Run.pending (if fuel = 0 then t else { t with UnsealKey := str "abc123" }) := by
  cases fuel with
  | zero => rw [scanLoop_zero, if_pos (Or.inl hu), if_pos rfl]
  | succ n =>
    rw [scanLoop_succ, if_pos (Or.inl hu), if_neg (Nat.succ_ne_zero n)]
    have hb : scanBody t (nextLine [str "Unseal Key: abc123"]).1
        = Run.ret { t with UnsealKey := str "abc123" } :=
      scanBody_unseal_line t (str "abc123") hu
    rw [hb, Run.bind_ret]
    exact scanLoop_nil_pending { t with UnsealKey := str "abc123" } (Or.inr hr) n

/-! ## The claims -/

/-- C1. Run DevServerStart for any number of passes of its scan loop. If it has
returned, the instance has a non-empty UnsealKey, a non-empty RootToken and
Running set. If it is still in its loop, the instance as it stands lacks a
credential and its Running flag has the value it had when DevServerStart was
called (false on a fresh instance): Running is written only after the loop has
exited, which it does only with both credentials set. -/
theorem DevServerStart_returns_ready (fuel : Nat) (t : VaultServer) (h : Host)
    (sp : DevSpawn) :
    (∀ t', DevServerStart fuel t h sp = Run.ret t' →
        t'.UnsealKey ≠ [] ∧ t'.RootToken ≠ [] ∧ t'.Running = true)
      ∧ (∀ s, DevServerStart fuel t h sp = Run.pending s →
          (s.UnsealKey = [] ∨ s.RootToken = []) ∧ s.Running = t.Running) := by
  constructor
  · intro t' hret
    unfold DevServerStart at hret
    obtain ⟨entry, _, h2⟩ := Run.bind_eq_ret.mp hret
    obtain ⟨t1, hl, h3⟩ := Run.bind_eq_ret.mp h2
    cases h3
    have hx := scanLoop_exit hl
    exact ⟨hx.1, hx.2, rfl⟩
  · intro s hp
    obtain ⟨entry, he, hl⟩ := DevServerStart_pending_inv hp
    have f := scanLoop_pending_frame hl
    exact ⟨f.1, f.2.1.trans (devScanEntry_frame he).1⟩

/-- C1 at a concrete server that prints a banner, the unseal key and the root
token: after three passes the call has returned with both credentials and Running
set; after two passes it is still in its loop, without root token and with
Running false. -/
theorem DevServerStart_returns_ready_witness :
    (∃ t', DevServerStart 3 (NewVaultServer []) sampleHost sampleSpawn = Run.ret t'
        ∧ t'.UnsealKey = str "abc123" ∧ t'.RootToken = str "s.XyZ"
        ∧ t'.UnsealKey ≠ [] ∧ t'.RootToken ≠ [] ∧ t'.Running = true)
      ∧ (∃ s, DevServerStart 2 (NewVaultServer []) sampleHost sampleSpawn = Run.pending s
          ∧ s.UnsealKey = str "abc123"
          ∧ (s.UnsealKey = [] ∨ s.RootToken = []) ∧ s.Running = (NewVaultServer []).Running) :=
  ⟨⟨_, rfl, rfl, rfl,
      (DevServerStart_returns_ready 3 (NewVaultServer []) sampleHost sampleSpawn).1 _ rfl⟩,
    ⟨_, rfl, rfl,
      (DevServerStart_returns_ready 2 (NewVaultServer []) sampleHost sampleSpawn).2 _ rfl⟩⟩

/-- C2, evaluated where the code departs from it. When the output ends before
both credentials were seen (here: no output at all, and an output that holds the
unseal key only), the scan loop has not exited after any number of passes: at end
of stream every pass reads the empty line and stores nothing. DevServerStart on
such a server therefore never returns; it stays in its loop without a root token
and with Running false. -/
theorem scanLoop_spins_at_end_of_stream (fuel : Nat) :
    scanLoop fuel (NewVaultServer []) [] = Run.pending (NewVaultServer [])
      ∧ scanLoop fuel (NewVaultServer []) [str "Unseal Key: abc123"]
          = Run.pending (if fuel = 0 then NewVaultServer []
              else { NewVaultServer [] with UnsealKey := str "abc123" })
      ∧ ∃ s, DevServerStart fuel (NewVaultServer []) sampleHost unsealOnlySpawn = Run.pending s
          ∧ s.RootToken = [] ∧ s.Running = false := by
  refine ⟨scanLoop_nil_pending _ (Or.inl rfl) fuel,
    scanLoop_unseal_only (NewVaultServer []) rfl rfl fuel, ?_⟩
  refine ⟨_, DevServerStart_pending (Eq.refl (Run.ret _)) (scanLoop_unseal_only _ rfl rfl fuel),
    ?_, ?_⟩
  · split_ifs <;> rfl
  · split_ifs <;> rfl

/-- C3, evaluated where the code departs from it. The line "Unseal Key:  abc123"
(two blanks after the colon) is honoured and the credential stored is " abc123",
which begins with a blank: the results of TrimRight and TrimLeft are dropped. The
dropped TrimLeft call would have produced "abc123". -/
theorem scanBody_stores_untrimmed :
    scanBody (NewVaultServer []) (str "Unseal Key:  abc123")
        = Run.ret { NewVaultServer [] with UnsealKey := str " abc123" }
      ∧ (str " abc123").head? = some 32
      ∧ TrimLeft (TrimRight (str " abc123") (str "\n")) (str " ") = str "abc123" :=
  ⟨rfl, rfl, rfl⟩

/-- C4 as stated fails on "Root Token: a: b": the root token stored is "a", not
the whole remainder "a: b". -/
theorem root_token_is_not_whole_remainder :
    scanBody (NewVaultServer []) (str "Root Token: a: b")
        = Run.ret { NewVaultServer [] with RootToken := str "a" }
      ∧ str "a" ≠ str "a: b" :=
  ⟨rfl, by decide⟩

/-- C4 (amended). An honoured line is split at every occurrence of ": ". With a
the text before the first occurrence (no occurrence starts inside a), the
credential stored is the text b between the first occurrence and the next one,
whatever text d follows that; it is the whole remainder b only when the remainder
holds no further ": ". This holds for the root token and for the unseal key. -/
theorem scanBody_stores_first_segment (t : VaultServer) (a b : GoString)
    (ha : ¬ str ": " <:+: a ++ str ":") :
    (∀ d, ¬ str ": " <:+: b ++ str ":" →
        (t.RootToken = [] →
          rootTokenPattern.MatchString (a ++ str ": " ++ b ++ str ": " ++ d) = true →
          scanBody t (a ++ str ": " ++ b ++ str ": " ++ d) = Run.ret { t with RootToken := b })
        ∧ (t.UnsealKey = [] →
          unsealPattern.MatchString (a ++ str ": " ++ b ++ str ": " ++ d) = true →
          scanBody t (a ++ str ": " ++ b ++ str ": " ++ d) = Run.ret { t with UnsealKey := b }))
    ∧ (¬ str ": " <:+: b →
        (t.RootToken = [] → rootTokenPattern.MatchString (a ++ str ": " ++ b) = true →
          scanBody t (a ++ str ": " ++ b) = Run.ret { t with RootToken := b })
        ∧ (t.UnsealKey = [] → unsealPattern.MatchString (a ++ str ": " ++ b) = true →
          scanBody t (a ++ str ": " ++ b) = Run.ret { t with UnsealKey := b })) := by
  constructor
  · intro d hb
    have e : a ++ str ": " ++ b ++ str ": " ++ d = a ++ (str ": " ++ (b ++ (str ": " ++ d))) := by
      simp only [List.append_assoc]
    rw [e]
    constructor
    · intro hr hm
      rw [scanBody_root_eq hr hm, Index_first _ ha]
      simp only [drop_first, firstPart_of_first d hb]
    · intro hu hm
      rw [scanBody_unseal_eq hu hm, Index_first _ ha]
      simp only [drop_first, firstPart_of_first d hb]
  · intro hb
    have e : a ++ str ": " ++ b = a ++ (str ": " ++ b) := by
      simp only [List.append_assoc]
    rw [e]
    constructor
    · intro hr hm
      rw [scanBody_root_eq hr hm, Index_first _ ha]
      simp only [drop_first, firstPart_of_none hb]
    · intro hu hm
      rw [scanBody_unseal_eq hu hm, Index_first _ ha]
      simp only [drop_first, firstPart_of_none hb]

/-- C4 (amended) on the line "Root Token: a: b", split as "Root Token", "a", "b". -/
theorem scanBody_stores_first_segment_witness :
    (¬ str ": " <:+: str "Root Token" ++ str ":")
      ∧ (¬ str ": " <:+: str "a" ++ str ":")
      ∧ str "Root Token" ++ str ": " ++ str "a" ++ str ": " ++ str "b" = str "Root Token: a: b"
      ∧ scanBody (NewVaultServer []) (str "Root Token" ++ str ": " ++ str "a" ++ str ": " ++ str "b")
          = Run.ret { NewVaultServer [] with RootToken := str "a" } :=
  ⟨by decide, by decide, rfl,
    ((scanBody_stores_first_segment (NewVaultServer []) (str "Root Token") (str "a")
      (by decide)).1 (str "b") (by decide)).1 rfl rfl⟩

/-- C5 as stated fails in two ways. For k1 = ": x", which is not empty, the line
"Unseal Key: : x" is honoured and stores the empty text (the part between the
first and the second ": "), so the key stays unset and the later line
"Unseal Key: k2" is honoured as well: the final key is "k2". And in the output
"Unseal Key: k0", "Unseal Key: k1", "Unseal Key: k2", "Root Token: r", which
contains the lines "Unseal Key: k1" and later "Unseal Key: k2" with k1 non-empty,
the key is already set when "Unseal Key: k1" is read: the final key is "k0", not
the "k1" that line stores when it is honoured. -/
theorem second_unseal_line_honoured :
    str ": x" ≠ []
      ∧ str "Unseal Key: " ++ str ": x" = str "Unseal Key: : x"
      ∧ scanBody (NewVaultServer []) (str "Unseal Key: : x") = Run.ret (NewVaultServer [])
      ∧ scanLoop 3 (NewVaultServer [])
          [str "Unseal Key: : x", str "Unseal Key: k2", str "Root Token: r"]
        = Run.ret { NewVaultServer [] with UnsealKey := str "k2", RootToken := str "r" }
      ∧ scanBody (NewVaultServer []) (str "Unseal Key: k1")
          = Run.ret { NewVaultServer [] with UnsealKey := str "k1" }
      ∧ scanLoop 4 (NewVaultServer [])
          [str "Unseal Key: k0", str "Unseal Key: k1", str "Unseal Key: k2", str "Root Token: r"]
        = Run.ret { NewVaultServer [] with UnsealKey := str "k0", RootToken := str "r" } :=
  ⟨by decide, rfl, rfl, rfl, rfl, rfl⟩

/-- C5 (amended). Once UnsealKey (respectively RootToken) is non-empty in a state
of the scan, it has the same value in every later state. For an output that
contains the line "Unseal Key: k1" and later the line "Unseal Key: k2": if
UnsealKey is still empty when the first of them is read and the key v that the
loop body stores for it is non-empty, then UnsealKey is v in every state of the
scan from that line on, and so when the loop exits. The key stored for the first
line is the beginning of k1, and it is empty exactly when k1 is empty or begins
with ": ". -/
theorem credentials_set_once :
    (∀ k t out s, scanIter k t out = Run.ret s →
        (t.UnsealKey ≠ [] → s.UnsealKey = t.UnsealKey)
          ∧ (t.RootToken ≠ [] → s.RootToken = t.RootToken))
    ∧ (∀ (t s0 : VaultServer) (pre mid post : List GoString) (k1 k2 v : GoString),
        scanIter pre.length t
            (pre ++ [str "Unseal Key: " ++ k1] ++ mid ++ [str "Unseal Key: " ++ k2] ++ post)
          = Run.ret s0 →
        s0.UnsealKey = [] →
        scanBody s0 (str "Unseal Key: " ++ k1) = Run.ret { s0 with UnsealKey := v } →
        v ≠ [] →
        (∀ k s, scanIter (pre.length + 1 + k) t
              (pre ++ [str "Unseal Key: " ++ k1] ++ mid ++ [str "Unseal Key: " ++ k2] ++ post)
            = Run.ret s → s.UnsealKey = v)
          ∧ (∀ fuel s, scanLoop fuel t
              (pre ++ [str "Unseal Key: " ++ k1] ++ mid ++ [str "Unseal Key: " ++ k2] ++ post)
            = Run.ret s → s.UnsealKey = v))
    ∧ (∀ (s0 : VaultServer) (k1 : GoString), s0.UnsealKey = [] →
        ∃ v, scanBody s0 (str "Unseal Key: " ++ k1) = Run.ret { s0 with UnsealKey := v }
          ∧ v <+: k1 ∧ (v = [] ↔ (k1 = [] ∨ ∃ r, k1 = str ": " ++ r))) := by
  refine ⟨fun k t out s h => scanIter_keeps h, ?_, ?_⟩
  · intro t s0 pre mid post k1 k2 v h0 hu hv hne
    have e : pre ++ [str "Unseal Key: " ++ k1] ++ mid ++ [str "Unseal Key: " ++ k2] ++ post
        = pre ++ (str "Unseal Key: " ++ k1) :: (mid ++ (str "Unseal Key: " ++ k2) :: post) := by
      simp only [List.append_assoc, List.singleton_append, List.cons_append, List.nil_append]
    rw [e] at h0 ⊢
    have key : ∀ k s, scanIter (pre.length + 1 + k) t
        (pre ++ (str "Unseal Key: " ++ k1) :: (mid ++ (str "Unseal Key: " ++ k2) :: post))
          = Run.ret s → s.UnsealKey = v := by
      intro k s hs
      rw [Nat.add_assoc, scanIter_add, h0, Run.bind_ret, List.drop_left, Nat.add_comm 1 k,
        scanIter, if_pos (Or.inl hu)] at hs
      simp only [nextLine, hv, Run.bind_ret] at hs
      exact (scanIter_keeps hs).1 hne
    refine ⟨key, ?_⟩
    intro fuel s hs
    have h1 := scanIter_of_scanLoop hs (pre.length + 1)
    rw [Nat.add_comm fuel] at h1
    exact key fuel s h1
  · intro s0 k1 hu
    exact ⟨firstPart k1, scanBody_unseal_line s0 k1 hu, firstPart_isPrefix k1,
      firstPart_eq_nil_iff k1⟩

/-- C5 (amended) on the output "==> Vault server started", "Unseal Key: k1",
"Unseal Key: k2", "Root Token: r" of a fresh instance: the key is unset when the
first unseal line is read, that line stores "k1", and the loop exits with the key
"k1". -/
theorem credentials_set_once_witness :
    scanIter 1 (NewVaultServer [])
        ([str "==> Vault server started"] ++ [str "Unseal Key: " ++ str "k1"] ++ []
          ++ [str "Unseal Key: " ++ str "k2"] ++ [str "Root Token: r"])
      = Run.ret (NewVaultServer [])
    ∧ scanBody (NewVaultServer []) (str "Unseal Key: " ++ str "k1")
      = Run.ret { NewVaultServer [] with UnsealKey := str "k1" }
    ∧ scanLoop 4 (NewVaultServer [])
        ([str "==> Vault server started"] ++ [str "Unseal Key: " ++ str "k1"] ++ []
          ++ [str "Unseal Key: " ++ str "k2"] ++ [str "Root Token: r"])
      = Run.ret { NewVaultServer [] with UnsealKey := str "k1", RootToken := str "r" }
    ∧ ({ NewVaultServer [] with UnsealKey := str "k1", RootToken := str "r" } :
        VaultServer).UnsealKey = str "k1" :=
  ⟨rfl, rfl, rfl,
    (credentials_set_once.2.1 (NewVaultServer []) (NewVaultServer [])
      [str "==> Vault server started"] [] [str "Root Token: r"] (str "k1") (str "k2") (str "k1")
      rfl rfl rfl (by decide)).2 4 _ rfl⟩

/-- C6 as stated fails in two ways. The user token file exists and is empty, the
server writes "s.devRoot" to it: after DevServerStart and ServerShutDown the file
still holds "s.devRoot", not the empty content. And when the user token file
holds "s.userToken" and the file the server leaves has permission 0644, the
restore writes the content back into that file and the file keeps permission
0644: it is not owner-only, although 0600 is passed to WriteFile. -/
theorem empty_user_token_not_restored :
    (hostWithToken []).fs (str "/home/dev/.vault-token") = some { data := [], mode := 0o644 }
      ∧ ((DevServerStart 3 (NewVaultServer []) (hostWithToken []) sampleSpawn).bind fun t =>
          (ServerShutDown t serverWrote false).bind fun fs =>
            Run.ret (fs (str "/home/dev/.vault-token")))
        = Run.ret (some { data := str "s.devRoot", mode := 0o644 })
      ∧ ((DevServerStart 3 (NewVaultServer []) (hostWithToken (str "s.userToken"))
            sampleSpawn).bind fun t =>
          (ServerShutDown t serverWrote false).bind fun fs =>
            Run.ret (fs (str "/home/dev/.vault-token")))
        = Run.ret (some { data := str "s.userToken", mode := 0o644 })
      ∧ (0o644 : Nat) ≠ 0o600 :=
  ⟨rfl, rfl, rfl, by decide⟩

/-- C6 (amended). For every non-empty content c of a user token file that exists
and is read successfully when DevServerStart is called, and whatever files the
server leaves: if DevServerStart returns and ServerShutDown, with a successful
write, returns, then what ServerShutDown leaves is the result of writing c to
UserTokenFile with permission 0600; the file holds exactly c, and it has
permission 0600 when the server has left no file there, so that the restore
creates it. When the instance lacked a credential at the call of DevServerStart,
as a fresh instance does, ServerShutDown does return. -/
theorem user_token_restored (fuel : Nat) (home c : GoString) (mode : Nat) (h : Host)
    (sp : DevSpawn) (t t' : VaultServer) (hhome : h.homeDir = some home)
    (hfile : h.fs (home ++ str "/.vault-token") = some { data := c, mode := mode })
    (hread : h.readErr = false) (hc : c ≠ [])
    (hret : DevServerStart fuel t h sp = Run.ret t') :
    t'.UserTokenFile = home ++ str "/.vault-token"
      ∧ (∀ fs' fs'' : FS, ServerShutDown t' fs' false = Run.ret fs'' →
          fs'' = WriteFile fs' t'.UserTokenFile c 0o600
            ∧ (fs'' t'.UserTokenFile).map File.data = some c
            ∧ (fs' t'.UserTokenFile = none →
                (fs'' t'.UserTokenFile).map File.mode = some 0o600))
      ∧ (t.UnsealKey = [] ∨ t.RootToken = [] →
          ∀ fs' : FS, ServerShutDown t' fs' false
            = Run.ret (WriteFile fs' t'.UserTokenFile c 0o600)) := by
  unfold DevServerStart at hret
  obtain ⟨entry, he, h2⟩ := Run.bind_eq_ret.mp hret
  obtain ⟨t1, hl, h3⟩ := Run.bind_eq_ret.mp h2
  cases h3
  have hcap : captureUserToken t h
      = Run.ret { t with UserTokenFile := home ++ str "/.vault-token", UserToken := c } := by
    unfold captureUserToken
    simp [hhome, hfile, ReadFile, hread]
  unfold devScanEntry at he
  rw [hcap, Run.bind_ret] at he
  split at he
  · cases he
  · split at he
    · cases he
    · cases he
      have hf := scanLoop_frame hl
      dsimp only at hf hl
      obtain ⟨_, hcmd, htok, hpath, _⟩ := hf
      refine ⟨hpath, ?_, ?_⟩
      · intro fs' fs'' hs
        unfold ServerShutDown at hs
        obtain ⟨u, _, hw⟩ := Run.bind_eq_ret.mp hs
        simp only [htok, hpath, ne_eq, hc, not_false_eq_true, if_true, Bool.false_eq_true,
          if_false] at hw
        cases hw
        refine ⟨by rw [hpath], by simp [WriteFile, hpath], ?_⟩
        intro hnone
        simp only [hpath] at hnone
        simp [WriteFile, hpath, hnone]
      · intro hg fs'
        cases hst : sp.start with
        | none =>
          rw [hst] at hl
          have key : ∀ S : VaultServer, S.UnsealKey = [] ∨ S.RootToken = [] →
              scanLoop fuel S [] ≠ Run.ret t1 := by
            intro S hS hx
            rw [scanLoop_nil_pending S hS fuel] at hx
            cases hx
          exact absurd hl (key _ hg)
        | some p =>
          rw [hst] at hcmd
          simp only [startPiped] at hcmd
          unfold ServerShutDown killProcess
          simp [hcmd, htok, hpath, hc]

/-- C6 (amended) on a host whose user token file holds "s.userToken": after
DevServerStart on a fresh instance, ServerShutDown returns; when the server has
overwritten the file with "s.devRoot" the file holds "s.userToken" again, and when
the server has removed the file it is created with "s.userToken" and permission
0600. -/
theorem user_token_restored_witness :
    ∃ t', DevServerStart 3 (NewVaultServer []) (hostWithToken (str "s.userToken")) sampleSpawn
        = Run.ret t'
      ∧ t'.UserTokenFile = str "/home/dev" ++ str "/.vault-token"
      ∧ ServerShutDown t' serverWrote false
          = Run.ret (WriteFile serverWrote t'.UserTokenFile (str "s.userToken") 0o600)
      ∧ (WriteFile serverWrote t'.UserTokenFile (str "s.userToken") 0o600
            t'.UserTokenFile).map File.data = some (str "s.userToken")
      ∧ (WriteFile (fun _ => none) t'.UserTokenFile (str "s.userToken") 0o600
            t'.UserTokenFile) = some { data := str "s.userToken", mode := 0o600 } :=
  ⟨_, rfl,
    (user_token_restored 3 (str "/home/dev") (str "s.userToken") 0o644
      (hostWithToken (str "s.userToken")) sampleSpawn (NewVaultServer []) _
      rfl rfl rfl (by decide) rfl).1,
    (user_token_restored 3 (str "/home/dev") (str "s.userToken") 0o644
      (hostWithToken (str "s.userToken")) sampleSpawn (NewVaultServer []) _
      rfl rfl rfl (by decide) rfl).2.2 (Or.inl rfl) serverWrote,
    ((user_token_restored 3 (str "/home/dev") (str "s.userToken") 0o644
      (hostWithToken (str "s.userToken")) sampleSpawn (NewVaultServer []) _
      rfl rfl rfl (by decide) rfl).2.1 serverWrote _
        ((user_token_restored 3 (str "/home/dev") (str "s.userToken") 0o644
          (hostWithToken (str "s.userToken")) sampleSpawn (NewVaultServer []) _
          rfl rfl rfl (by decide) rfl).2.2 (Or.inl rfl) serverWrote)).2.1,
    rfl⟩

/-- C7, evaluated where the code departs from it. ServerStart on a fresh
instance, on a host where the home directory and the executable resolve but
Command.Start() fails: the call returns an instance with Running set whose command
holds no process, and ServerShutDown on that instance panics in Kill. -/
theorem ServerStart_running_without_process :
    ((ServerStart (NewVaultServer []) sampleHost none).bind fun t =>
        Run.ret (t.Running, t.Command.isSome, t.Command.bind Cmd.Process))
      = Run.ret (true, true, none)
    ∧ ((ServerStart (NewVaultServer []) sampleHost none).bind fun t =>
        (ServerShutDown t (fun _ => none) false).bind fun _ => Run.ret ())
      = Run.panic :=
  ⟨rfl, rfl⟩

/-- C8, evaluated where the code departs from it. On the dev-mode instance at
127.0.0.1:8300 with root token "s.XyZ", in an environment that names an agent at
http://agent.example:8100, VaultTestClient returns a client whose base address is
the address of the agent, not "http://127.0.0.1:8300": only config.Address is
overwritten after ReadEnvironment, and the agent address that ReadEnvironment has
put into the configuration survives. The token is the RootToken of the instance,
here and with every client library and environment. -/
theorem VaultTestClient_agent_address :
    VaultTestClient agentAPI devInstance
        = Run.ret { addr := str "http://agent.example:8100", token := str "s.XyZ",
                    internals := () }
      ∧ str "http://" ++ devInstance.Address = str "http://127.0.0.1:8300"
      ∧ str "http://agent.example:8100" ≠ str "http://" ++ devInstance.Address
      ∧ devInstance.RootToken = str "s.XyZ"
      ∧ ∀ (σ κ : Type) (api : VaultAPI σ κ) (t : VaultServer) (c : Client κ),
          VaultTestClient api t = Run.ret c → c.token = t.RootToken := by
  refine ⟨rfl, rfl, by decide, rfl, ?_⟩
  intro σ κ api t c hret
  unfold VaultTestClient at hret
  dsimp only at hret
  split at hret
  · cases hret
  · split at hret
    · cases hret
    · cases hret
      rfl

/-- C9. NewVaultServer keeps a non-empty address exactly, and gives the empty
address the default "127.0.0.1:8200". -/
theorem NewVaultServer_address (addr : GoString) (h : addr ≠ []) :
    (NewVaultServer addr).Address = addr
      ∧ (NewVaultServer []).Address = str "127.0.0.1:8200" := by
  constructor
  · simp [NewVaultServer, h]
  · rfl

/-- C9 at the address "10.1.2.3:8300". -/
theorem NewVaultServer_address_witness :
    (NewVaultServer (str "10.1.2.3:8300")).Address = str "10.1.2.3:8300"
      ∧ (NewVaultServer []).Address = str "127.0.0.1:8200" :=
  NewVaultServer_address (str "10.1.2.3:8300") (by decide)

/-- C10. In every state of the scan, the pass of the loop body over the line
"Unseal Key:" returns without a panic and leaves the instance, so both
credentials, as it was; likewise for the line "Root Token:". No line at all makes
the loop body panic: the index parts[1] is taken only under len(parts) > 1. -/
theorem scanBody_bare_label (t : VaultServer) :
    scanBody t (str "Unseal Key:") = Run.ret t ∧ scanBody t (str "Root Token:") = Run.ret t
      ∧ ∀ line, scanBody t line ≠ Run.panic := by
  have h1 : unsealPattern.MatchString (str "Unseal Key:") = false := rfl
  have h2 : rootTokenPattern.MatchString (str "Unseal Key:") = false := rfl
  have h3 : unsealPattern.MatchString (str "Root Token:") = false := rfl
  have h4 : rootTokenPattern.MatchString (str "Root Token:") = false := rfl
  refine ⟨?_, ?_, ?_⟩
  · unfold scanBody
    simp [h1, h2]
  · unfold scanBody
    simp [h3, h4]
  · intro line hp
    obtain ⟨t1, h5⟩ := scanBody_returns t line
    rw [h5] at hp
    cases hp

end VaultTest
